import Mathlib

/-!
# Shallow embedding of the `rust-edid` decoder (src/src/lib.rs)

The crate decodes the 128-byte EDID base block with `nom` combinators.
We model a byte as `Fin 256`, a parser as a function from the remaining
input to either `(rest, value)` or an error, mirroring `nom`'s
`IResult<&[u8], T>` in `complete` mode (insufficient input is an error,
not `Incomplete`).  The top-level `parse_edid` additionally has a panic
outcome, because the source calls `.unwrap()` on the descriptor count
(src/src/lib.rs line 276).
-/

abbrev Byte := Fin 256

abbrev Bytes := List Byte

/-- The error kinds the decoder can produce: a `tag` mismatch on the fixed
magic sequence, or running out of input during a fixed-size read. -/
inductive ParseError where
  | tagMismatch
  | eof
deriving Repr, DecidableEq

/-- Result of one `nom`-style parser: remaining input plus value, or error. -/
inductive PResult (α : Type) where
  | ok (rest : Bytes) (val : α)
  | err (e : ParseError)
deriving Repr, DecidableEq

abbrev Parser (α : Type) := Bytes → PResult α

/-- Sequencing of `nom` parsers (what `tuple`/`?` desugar to). -/
def pbind (p : Parser α) (f : α → Parser β) : Parser β := fun input =>
  match p input with
  | .err e => .err e
  | .ok rest v => f v rest

def ppure (v : α) : Parser α := fun input => .ok input v

/-- Model of `nom::combinator::map`. -/
def pmap (f : α → β) (p : Parser α) : Parser β :=
  pbind p (fun v => ppure (f v))

/-- Model of `nom::combinator::peek`: run `p` without consuming input. -/
def ppeek (p : Parser α) : Parser α := fun input =>
  match p input with
  | .err e => .err e
  | .ok _ v => .ok input v

/-- Model of `nom::branch::alt` restricted to two branches; the source's 11-way
`alt` is the right-nested chain of this. First success wins. -/
def palt (p q : Parser α) : Parser α := fun input =>
  match p input with
  | .ok rest v => .ok rest v
  | .err _ => q input

/-- Model of `nom::sequence::preceded`: run `p`, discard its value, then run `q`. -/
def preceded (p : Parser α) (q : Parser β) : Parser β :=
  pbind p (fun _ => q)

/-- Model of `nom::multi::count`: run `p` exactly `n` times, collecting the values. -/
def countP (p : Parser α) : Nat → Parser (List α)
  | 0 => ppure []
  | n + 1 => pbind p (fun v => pbind (countP p n) (fun vs => ppure (v :: vs)))

/-- Model of `nom::number::complete::le_u8`: one byte, as a `Nat` below 256. -/
def le_u8 : Parser Nat := fun input =>
  match input with
  | [] => .err .eof
  | b :: rest => .ok rest b.val

/-- Model of `nom::number::complete::le_u16`: two bytes, little endian. -/
def le_u16 : Parser Nat := fun input =>
  match input with
  | a :: b :: rest => .ok rest (a.val + b.val * 256)
  | _ => .err .eof

/-- Model of `nom::number::complete::be_u16`: two bytes, big endian. -/
def be_u16 : Parser Nat := fun input =>
  match input with
  | a :: b :: rest => .ok rest (a.val * 256 + b.val)
  | _ => .err .eof

/-- Model of `nom::number::complete::le_u32`: four bytes, little endian. -/
def le_u32 : Parser Nat := fun input =>
  match input with
  | a :: b :: c :: d :: rest =>
      .ok rest (a.val + b.val * 256 + c.val * 65536 + d.val * 16777216)
  | _ => .err .eof

/-- Model of `nom::bytes::complete::take(n)`. -/
def take' (n : Nat) : Parser Bytes := fun input =>
  if n ≤ input.length then .ok (input.drop n) (input.take n) else .err .eof

/-- Model of `nom::bytes::complete::tag(pat)`: succeeds iff `pat` is a prefix of the
input (a too-short input compares unequal and is a tag error, as in `nom`'s
`complete` mode). -/
def tag' (pat : Bytes) : Parser Bytes := fun input =>
  if input.take pat.length = pat then .ok (input.drop pat.length) pat
  else .err .tagMismatch

namespace cp437

/-- Modelled from the spec: the external 256-entry byte-to-character
translation table of `mod cp437` (`src/cp437.rs` is not among the sources;
the spec treats it as "a pure function mapping each of the 256 possible
byte values to a display character, exposed as a stateless external
collaborator").  We model it as a fixed pure function; none of the claims
depend on the individual table entries. -/
def forward (b : Byte) : Char := Char.ofNat b.val

end cp437

/-- Structure `Header` (src/src/lib.rs lines 17-26).  The numeric fields are the
`u16`/`u32`/`u8` values produced by the corresponding `nom` readers. -/
structure Header where
  vendor : Char × Char × Char
  product : Nat
  serial : Nat
  week : Nat
  year : Nat
  version : Nat
  revision : Nat
deriving Repr, DecidableEq

/-- Function `parse_vendor` (src/src/lib.rs lines 28-36): three 5-bit fields of the
16-bit vendor value, each offset by `b'A' - 1 = 64`. -/
def parse_vendor (v : Nat) : Char × Char × Char :=
  (Char.ofNat (((v >>> 10) &&& 0x1F) + 64),
   Char.ofNat (((v >>> 5) &&& 0x1F) + 64),
   Char.ofNat ((v &&& 0x1F) + 64))

/-- The fixed 8-byte EDID magic sequence `00 FF FF FF FF FF FF 00`. -/
def magicBytes : Bytes := [0x00, 0xFF, 0xFF, 0xFF, 0xFF, 0xFF, 0xFF, 0x00]

/-- Parser function `parse_header` (src/src/lib.rs lines 37-60). -/
def parse_header : Parser Header :=
  pbind (tag' magicBytes) fun _ =>
  pbind be_u16 fun vendor =>
  pbind le_u16 fun product =>
  pbind le_u32 fun serial =>
  pbind le_u8 fun week =>
  pbind le_u8 fun year =>
  pbind le_u8 fun version =>
  pbind le_u8 fun revision =>
  ppure { vendor := parse_vendor vendor, product := product, serial := serial,
          week := week, year := year, version := version, revision := revision }

/-- Structure `Display` (src/src/lib.rs lines 62-69). -/
structure Display where
  video_input : Nat
  width : Nat
  height : Nat
  gamma : Nat
  features : Nat
deriving Repr, DecidableEq

/-- Parser function `parse_display` (src/src/lib.rs lines 70-87). -/
def parse_display : Parser Display :=
  pbind le_u8 fun video_input =>
  pbind le_u8 fun width =>
  pbind le_u8 fun height =>
  pbind le_u8 fun gamma =>
  pbind le_u8 fun features =>
  ppure { video_input := video_input, width := width, height := height,
          gamma := gamma, features := features }

/-- Parser function `parse_chromaticity` (src/src/lib.rs lines 89-92): skip 10 bytes. -/
def parse_chromaticity : Parser Unit :=
  pbind (take' 10) fun _ => ppure ()

/-- Parser function `parse_established_timing` (src/src/lib.rs lines 94-97): skip 3 bytes. -/
def parse_established_timing : Parser Unit :=
  pbind (take' 3) fun _ => ppure ()

/-- Parser function `parse_standard_timing` (src/src/lib.rs lines 99-102): skip 16 bytes. -/
def parse_standard_timing : Parser Unit :=
  pbind (take' 16) fun _ => ppure ()

/-- Rust's `str::trim`: remove leading and trailing whitespace characters.
Implemented structurally over the character list so that it is
kernel-executable. -/
def strTrim (s : String) : String :=
  ⟨((s.data.dropWhile Char.isWhitespace).reverse.dropWhile Char.isWhitespace).reverse⟩

/-- The pure text transformation inside `parse_descriptor_text`: drop the
newline bytes (0x0A), translate each remaining byte through the CP437
table, and trim surrounding whitespace. -/
def descString (b : Bytes) : String :=
  strTrim (((b.filter fun c => c.val != 0x0A).map cp437.forward).asString)

/-- Parser function `parse_descriptor_text` (src/src/lib.rs lines 105-116): take exactly
13 bytes, filter out 0x0A, map through CP437, trim. -/
def parse_descriptor_text : Parser String :=
  pmap (fun s => strTrim s)
    (pmap (fun b : Bytes => ((b.filter fun c => c.val != 0x0A).map cp437.forward).asString)
      (take' 13))

/-- Structure `DetailedTiming` (src/src/lib.rs lines 118-139). -/
structure DetailedTiming where
  pixel_clock : Nat
  horizontal_active_pixels : Nat
  horizontal_blanking_pixels : Nat
  vertical_active_lines : Nat
  vertical_blanking_lines : Nat
  horizontal_front_porch : Nat
  horizontal_sync_width : Nat
  vertical_front_porch : Nat
  vertical_sync_width : Nat
  horizontal_size : Nat
  vertical_size : Nat
  horizontal_border_pixels : Nat
  vertical_border_pixels : Nat
  features : Nat
deriving Repr, DecidableEq

/-- Parser function `parse_detailed_timing` (src/src/lib.rs lines 141-205): one little-endian
`u16` then sixteen bytes, recombined by the standard's bit packing. -/
def parse_detailed_timing : Parser DetailedTiming :=
  pbind le_u16 fun pixel_clock_10khz =>
  pbind le_u8 fun horizontal_active_lo =>
  pbind le_u8 fun horizontal_blanking_lo =>
  pbind le_u8 fun horizontal_px_hi =>
  pbind le_u8 fun vertical_active_lo =>
  pbind le_u8 fun vertical_blanking_lo =>
  pbind le_u8 fun vertical_px_hi =>
  pbind le_u8 fun horizontal_front_porch_lo =>
  pbind le_u8 fun horizontal_sync_width_lo =>
  pbind le_u8 fun vertical_lo =>
  pbind le_u8 fun porch_sync_hi =>
  pbind le_u8 fun horizontal_size_lo =>
  pbind le_u8 fun vertical_size_lo =>
  pbind le_u8 fun size_hi =>
  pbind le_u8 fun horizontal_border =>
  pbind le_u8 fun vertical_border =>
  pbind le_u8 fun features =>
  ppure {
    pixel_clock := pixel_clock_10khz * 10,
    horizontal_active_pixels := horizontal_active_lo ||| ((horizontal_px_hi >>> 4) <<< 8),
    horizontal_blanking_pixels := horizontal_blanking_lo ||| ((horizontal_px_hi &&& 0xf) <<< 8),
    vertical_active_lines := vertical_active_lo ||| ((vertical_px_hi >>> 4) <<< 8),
    vertical_blanking_lines := vertical_blanking_lo ||| ((vertical_px_hi &&& 0xf) <<< 8),
    horizontal_front_porch := horizontal_front_porch_lo ||| ((porch_sync_hi >>> 6) <<< 8),
    horizontal_sync_width := horizontal_sync_width_lo ||| (((porch_sync_hi >>> 4) &&& 0x3) <<< 8),
    vertical_front_porch := (vertical_lo >>> 4) ||| (((porch_sync_hi >>> 2) &&& 0x3) <<< 8),
    vertical_sync_width := (vertical_lo &&& 0xf) ||| ((porch_sync_hi &&& 0x3) <<< 8),
    horizontal_size := horizontal_size_lo ||| ((size_hi >>> 4) <<< 8),
    vertical_size := vertical_size_lo ||| ((size_hi &&& 0xf) <<< 8),
    horizontal_border_pixels := horizontal_border,
    vertical_border_pixels := vertical_border,
    features := features }

/-- Enumeration `Descriptor` (src/src/lib.rs lines 207-221). -/
inductive Descriptor where
  | DetailedTiming (t : DetailedTiming)
  | SerialNumber (s : String)
  | UnspecifiedText (s : String)
  | RangeLimits
  | ProductName (s : String)
  | WhitePoint
  | StandardTiming
  | ColorManagement
  | TimingCodes
  | EstablishedTimings
  | Dummy
  | Unknown (data : List Nat)
deriving Repr, DecidableEq

/-- Parser function `parse_descriptor` (src/src/lib.rs lines 225-258): peek a little-endian
`u16`; zero means Monitor Descriptor (skip 3 bytes, one sub-tag byte, then
the 11-way ordered `alt`, each arm preceded by one more byte); nonzero is a
Detailed Timing block. -/
def parse_descriptor : Parser Descriptor :=
  pbind (ppeek le_u16) fun descriptor_type =>
  if descriptor_type = 0 then
    pbind (take' 3) fun _ =>
    preceded le_u8 <|
      palt (pmap Descriptor.SerialNumber (preceded le_u8 parse_descriptor_text)) <|
      palt (pmap Descriptor.UnspecifiedText (preceded le_u8 parse_descriptor_text)) <|
      palt (pmap (fun _ => Descriptor.RangeLimits) (preceded le_u8 (take' 13))) <|
      palt (pmap Descriptor.ProductName (preceded le_u8 parse_descriptor_text)) <|
      palt (pmap (fun _ => Descriptor.WhitePoint) (preceded le_u8 (take' 13))) <|
      palt (pmap (fun _ => Descriptor.StandardTiming) (preceded le_u8 (take' 13))) <|
      palt (pmap (fun _ => Descriptor.ColorManagement) (preceded le_u8 (take' 13))) <|
      palt (pmap (fun _ => Descriptor.TimingCodes) (preceded le_u8 (take' 13))) <|
      palt (pmap (fun _ => Descriptor.EstablishedTimings) (preceded le_u8 (take' 13))) <|
      palt (pmap (fun _ => Descriptor.Dummy) (preceded le_u8 (take' 13)))
           (pmap (fun data => Descriptor.Unknown data) (preceded le_u8 (countP le_u8 13)))
  else
    pmap Descriptor.DetailedTiming parse_detailed_timing

/-- Structure `EDID` (src/src/lib.rs lines 260-268). -/
structure EDID where
  header : Header
  display : Display
  chromaticity : Unit
  established_timing : Unit
  standard_timing : Unit
  descriptors : List Descriptor
deriving Repr, DecidableEq

/-- Outcome of the top-level decode.  `panicked` models the Rust panic
raised by the `.unwrap()` at src/src/lib.rs line 276 when the descriptor
region fails to parse. -/
inductive TopResult (α : Type) where
  | ok (rest : Bytes) (val : α)
  | err (e : ParseError)
  | panicked
deriving Repr, DecidableEq

/-- Function `parse_edid` (src/src/lib.rs lines 270-291).  Every step propagates its
error with `?`, except the descriptor count whose result is `.unwrap()`ed:
a failure there is a panic, not a returned error. -/
def parse_edid (input : Bytes) : TopResult EDID :=
  match parse_header input with
  | .err e => .err e
  | .ok input header =>
  match parse_display input with
  | .err e => .err e
  | .ok input display =>
  match parse_chromaticity input with
  | .err e => .err e
  | .ok input chromaticity =>
  match parse_established_timing input with
  | .err e => .err e
  | .ok input established_timing =>
  match parse_standard_timing input with
  | .err e => .err e
  | .ok input standard_timing =>
  match countP parse_descriptor 4 input with
  | .err _ => .panicked
  | .ok input descriptors =>
  match take' 1 input with
  | .err e => .err e
  | .ok input _ =>
  match take' 1 input with
  | .err e => .err e
  | .ok input _ =>
    .ok input { header := header, display := display, chromaticity := chromaticity,
                established_timing := established_timing, standard_timing := standard_timing,
                descriptors := descriptors }

/-- Function `parse` (src/src/lib.rs lines 293-295). -/
def parse (data : Bytes) : TopResult EDID := parse_edid data

/-! ## Concrete inputs used as witnesses below -/

/-- A 54-byte buffer: valid magic, then zeros.  The header, display and
three skipped regions consume all 54 bytes, so the descriptor region is
empty and the descriptor count fails. -/
def truncInput : Bytes := magicBytes ++ List.replicate 46 0

/-- A minimal 20-byte header input: valid magic followed by 12 zero bytes. -/
def hdrInput : Bytes := magicBytes ++ List.replicate 12 0

/-- The header decoded from `hdrInput`. -/
def hdr0 : Header :=
  { vendor := parse_vendor 0, product := 0, serial := 0, week := 0, year := 0,
    version := 0, revision := 0 }

/-- An 18-byte Monitor Descriptor slot whose sub-tag byte `0xFC` marks it
as a product name, with 13 text bytes `'A'`. -/
def pnSlot : Bytes := [0, 0, 0, 0xFC, 0] ++ List.replicate 13 0x41

/-- A 128-byte buffer: valid magic then zeros. -/
def in128 : Bytes := magicBytes ++ List.replicate 120 0

/-- The 18-byte detailed-timing block of the crate's (commented-out)
`card0-VGA-1` test fixture. -/
def vgaBlock : Bytes :=
  [0x21, 0x39, 0x90, 0x30, 0x62, 0x1A, 0x27, 0x40, 0x68,
   0xB0, 0x36, 0x00, 0xDA, 0x28, 0x11, 0x00, 0x00, 0x1C]

/-- The decoded fields of `vgaBlock` (as in the crate's expected test value). -/
def vgaTiming : DetailedTiming :=
  { pixel_clock := 146250, horizontal_active_pixels := 1680,
    horizontal_blanking_pixels := 560, vertical_active_lines := 1050,
    vertical_blanking_lines := 39, horizontal_front_porch := 104,
    horizontal_sync_width := 176, vertical_front_porch := 3,
    vertical_sync_width := 6, horizontal_size := 474, vertical_size := 296,
    horizontal_border_pixels := 0, vertical_border_pixels := 0,
    features := 28 }

/-- An 18-byte descriptor slot with a nonzero look-ahead value, hence a
Detailed Timing block. -/
def dtSlot : Bytes := 1 :: List.replicate 17 0

/-- The timing record decoded from `dtSlot`. -/
def dtTen : DetailedTiming :=
  { pixel_clock := 10, horizontal_active_pixels := 0,
    horizontal_blanking_pixels := 0, vertical_active_lines := 0,
    vertical_blanking_lines := 0, horizontal_front_porch := 0,
    horizontal_sync_width := 0, vertical_front_porch := 0,
    vertical_sync_width := 0, horizontal_size := 0, vertical_size := 0,
    horizontal_border_pixels := 0, vertical_border_pixels := 0,
    features := 0 }

/-! ## Basic inversion and computation lemmas for the combinators -/

theorem pbind_ok {p : Parser α} {f : α → Parser β} {l r : Bytes} {v : α}
    (h : p l = .ok r v) : pbind p f l = f v r := by
  simp [pbind, h]

theorem pbind_ok_inv {p : Parser α} {f : α → Parser β} {l r : Bytes} {w : β}
    (h : pbind p f l = .ok r w) : ∃ r' v, p l = .ok r' v ∧ f v r' = .ok r w := by
  unfold pbind at h
  cases hp : p l with
  | ok r' v => exact ⟨r', v, rfl, by rwa [hp] at h⟩
  | err e => rw [hp] at h; cases h

theorem ppure_ok_inv {v w : α} {l r : Bytes}
    (h : ppure v l = .ok r w) : r = l ∧ w = v := by
  simp [ppure] at h
  exact ⟨h.1.symm, h.2.symm⟩

theorem pmap_ok_inv {p : Parser α} {f : α → β} {l r : Bytes} {w : β}
    (h : pmap f p l = .ok r w) : ∃ v, p l = .ok r v ∧ w = f v := by
  obtain ⟨r', v, hp, hf⟩ := pbind_ok_inv h
  obtain ⟨hr, hw⟩ := ppure_ok_inv hf
  exact ⟨v, by rw [hr]; exact hp, hw⟩

theorem palt_ok_inv {p q : Parser α} {l r : Bytes} {v : α}
    (h : palt p q l = .ok r v) : p l = .ok r v ∨ q l = .ok r v := by
  unfold palt at h
  cases hp : p l with
  | ok r' v' =>
      rw [hp] at h
      cases h
      exact Or.inl rfl
  | err e => rw [hp] at h; exact Or.inr h

theorem ppeek_ok_inv {p : Parser α} {l r : Bytes} {v : α}
    (h : ppeek p l = .ok r v) : r = l ∧ ∃ r', p l = .ok r' v := by
  unfold ppeek at h
  cases hp : p l with
  | ok r' v' => rw [hp] at h; cases h; exact ⟨rfl, r', rfl⟩
  | err e => rw [hp] at h; cases h

theorem take'_ok {n : Nat} {l : Bytes} (h : n ≤ l.length) :
    take' n l = .ok (l.drop n) (l.take n) := by
  simp [take', h]

theorem take'_ok_inv {n : Nat} {l r : Bytes} {v : Bytes}
    (h : take' n l = .ok r v) : n ≤ l.length ∧ r = l.drop n := by
  unfold take' at h
  split at h
  · cases h; exact ⟨by assumption, rfl⟩
  · cases h

theorem le_u8_ok_inv {l r : Bytes} {v : Nat}
    (h : le_u8 l = .ok r v) : 1 ≤ l.length ∧ r = l.drop 1 := by
  cases l with
  | nil => cases h
  | cons b t => cases h; simp

theorem le_u16_ok_inv {l r : Bytes} {v : Nat}
    (h : le_u16 l = .ok r v) : 2 ≤ l.length ∧ r = l.drop 2 := by
  match l with
  | [] => cases h
  | [a] => cases h
  | a :: b :: t => cases h; simp

theorem be_u16_ok_inv {l r : Bytes} {v : Nat}
    (h : be_u16 l = .ok r v) : 2 ≤ l.length ∧ r = l.drop 2 := by
  match l with
  | [] => cases h
  | [a] => cases h
  | a :: b :: t => cases h; simp

theorem le_u32_ok_inv {l r : Bytes} {v : Nat}
    (h : le_u32 l = .ok r v) : 4 ≤ l.length ∧ r = l.drop 4 := by
  match l with
  | [] => cases h
  | [a] => cases h
  | [a, b] => cases h
  | [a, b, c] => cases h
  | a :: b :: c :: d :: t => cases h; simp

/-! ## Exact-consumption framework

`ConsumesOnly p n` says that whenever `p` succeeds it had at least `n`
bytes of input and its remaining input is exactly the input minus its
first `n` bytes. -/

def ConsumesOnly (p : Parser α) (n : Nat) : Prop :=
  ∀ l r v, p l = .ok r v → n ≤ l.length ∧ r = l.drop n

theorem co_congr {p : Parser α} {m n : Nat} (h : ConsumesOnly p m)
    (e : m = n) : ConsumesOnly p n := e ▸ h

theorem co_ppure (v : α) : ConsumesOnly (ppure v) 0 := by
  intro l r w h
  obtain ⟨rfl, -⟩ := ppure_ok_inv h
  simp

theorem co_pbind {p : Parser α} {f : α → Parser β} {m n : Nat}
    (hp : ConsumesOnly p m) (hf : ∀ v, ConsumesOnly (f v) n) :
    ConsumesOnly (pbind p f) (m + n) := by
  intro l r w h
  obtain ⟨r', v, h1, h2⟩ := pbind_ok_inv h
  obtain ⟨hm, rfl⟩ := hp l r' v h1
  obtain ⟨hn, rfl⟩ := hf v (l.drop m) r w h2
  have hlen := List.length_drop m (l := l)
  exact ⟨by omega, by rw [List.drop_drop]⟩

theorem co_pmap {p : Parser α} {f : α → β} {n : Nat}
    (hp : ConsumesOnly p n) : ConsumesOnly (pmap f p) n := by
  have h := co_pbind hp (fun v => co_ppure (f v))
  exact co_congr h (by omega)

theorem co_preceded {p : Parser α} {q : Parser β} {m n : Nat}
    (hp : ConsumesOnly p m) (hq : ConsumesOnly q n) :
    ConsumesOnly (preceded p q) (m + n) :=
  co_pbind hp (fun _ => hq)

theorem co_palt {p q : Parser α} {n : Nat}
    (hp : ConsumesOnly p n) (hq : ConsumesOnly q n) :
    ConsumesOnly (palt p q) n := by
  intro l r v h
  cases palt_ok_inv h with
  | inl h' => exact hp l r v h'
  | inr h' => exact hq l r v h'

theorem co_ppeek (p : Parser α) : ConsumesOnly (ppeek p) 0 := by
  intro l r v h
  obtain ⟨rfl, -⟩ := ppeek_ok_inv h
  simp

theorem co_le_u8 : ConsumesOnly le_u8 1 := fun _ _ _ h => le_u8_ok_inv h

theorem co_le_u16 : ConsumesOnly le_u16 2 := fun _ _ _ h => le_u16_ok_inv h

theorem co_be_u16 : ConsumesOnly be_u16 2 := fun _ _ _ h => be_u16_ok_inv h

theorem co_le_u32 : ConsumesOnly le_u32 4 := fun _ _ _ h => le_u32_ok_inv h

theorem co_take' (n : Nat) : ConsumesOnly (take' n) n := fun _ _ _ h => take'_ok_inv h

theorem co_text : ConsumesOnly parse_descriptor_text 13 :=
  co_pmap (co_pmap (co_take' 13))

theorem co_countP {p : Parser α} {n : Nat} (hp : ConsumesOnly p n) :
    ∀ k, ConsumesOnly (countP p k) (k * n) := by
  intro k
  induction k with
  | zero => exact co_congr (co_ppure []) (by omega)
  | succ k ih =>
      have h := co_pbind hp (fun v => co_pbind ih (fun vs => co_ppure (v :: vs)))
      exact co_congr h (by ring)

theorem co_detailed : ConsumesOnly parse_detailed_timing 18 := by
  refine @co_congr _ parse_detailed_timing
    (2 + (1 + (1 + (1 + (1 + (1 + (1 + (1 + (1 + (1 + (1 + (1 + (1 + (1 + (1 + (1 + (1 + 0)))))))))))))))))
    18 ?_ (by norm_num)
  unfold parse_detailed_timing
  exact co_pbind co_le_u16 fun _ =>
    co_pbind co_le_u8 fun _ =>
    co_pbind co_le_u8 fun _ =>
    co_pbind co_le_u8 fun _ =>
    co_pbind co_le_u8 fun _ =>
    co_pbind co_le_u8 fun _ =>
    co_pbind co_le_u8 fun _ =>
    co_pbind co_le_u8 fun _ =>
    co_pbind co_le_u8 fun _ =>
    co_pbind co_le_u8 fun _ =>
    co_pbind co_le_u8 fun _ =>
    co_pbind co_le_u8 fun _ =>
    co_pbind co_le_u8 fun _ =>
    co_pbind co_le_u8 fun _ =>
    co_pbind co_le_u8 fun _ =>
    co_pbind co_le_u8 fun _ =>
    co_pbind co_le_u8 fun _ =>
    co_ppure _

theorem co_monitor_arm_text (f : String → Descriptor) :
    ConsumesOnly (pmap f (preceded le_u8 parse_descriptor_text)) 14 := by
  have h := @co_pmap String Descriptor (preceded le_u8 parse_descriptor_text) f (1 + 13)
    (co_preceded co_le_u8 co_text)
  exact co_congr h (by norm_num)

theorem co_monitor_arm_take (f : Bytes → Descriptor) :
    ConsumesOnly (pmap f (preceded le_u8 (take' 13))) 14 := by
  have h := @co_pmap Bytes Descriptor (preceded le_u8 (take' 13)) f (1 + 13)
    (co_preceded co_le_u8 (co_take' 13))
  exact co_congr h (by norm_num)

theorem co_monitor_arm_unknown (f : List Nat → Descriptor) :
    ConsumesOnly (pmap f (preceded le_u8 (countP le_u8 13))) 14 := by
  have h := @co_pmap (List Nat) Descriptor (preceded le_u8 (countP le_u8 13)) f (1 + 13)
    (co_preceded co_le_u8
      (@co_congr _ (countP le_u8 13) (13 * 1) 13 (co_countP co_le_u8 13) (by norm_num)))
  exact co_congr h (by norm_num)

theorem co_descriptor : ConsumesOnly parse_descriptor 18 := by
  refine @co_congr _ parse_descriptor (0 + 18) 18 ?_ (by norm_num)
  unfold parse_descriptor
  refine co_pbind (co_ppeek le_u16) fun descriptor_type => ?_
  by_cases hz : descriptor_type = 0
  · rw [if_pos hz]
    refine @co_congr _ _ (3 + (1 + 14)) 18 ?_ (by norm_num)
    exact co_pbind (co_take' 3) fun _ =>
      co_preceded co_le_u8 <|
      co_palt (co_monitor_arm_text Descriptor.SerialNumber) <|
      co_palt (co_monitor_arm_text Descriptor.UnspecifiedText) <|
      co_palt (co_monitor_arm_take fun _ => Descriptor.RangeLimits) <|
      co_palt (co_monitor_arm_text Descriptor.ProductName) <|
      co_palt (co_monitor_arm_take fun _ => Descriptor.WhitePoint) <|
      co_palt (co_monitor_arm_take fun _ => Descriptor.StandardTiming) <|
      co_palt (co_monitor_arm_take fun _ => Descriptor.ColorManagement) <|
      co_palt (co_monitor_arm_take fun _ => Descriptor.TimingCodes) <|
      co_palt (co_monitor_arm_take fun _ => Descriptor.EstablishedTimings) <|
      co_palt (co_monitor_arm_take fun _ => Descriptor.Dummy)
              (co_monitor_arm_unknown fun data => Descriptor.Unknown data)
  · rw [if_neg hz]
    exact co_pmap co_detailed

/-! ## Totality framework

`TotalN p n` says that `p` succeeds on every input of length at least `n`,
consuming exactly its first `n` bytes. -/

def TotalN (p : Parser α) (n : Nat) : Prop :=
  ∀ l : Bytes, n ≤ l.length → ∃ v, p l = .ok (l.drop n) v

theorem tot_congr {p : Parser α} {m n : Nat} (h : TotalN p m)
    (e : m = n) : TotalN p n := e ▸ h

theorem tot_ppure (v : α) : TotalN (ppure v) 0 :=
  fun _ _ => ⟨v, rfl⟩

theorem tot_pbind {p : Parser α} {f : α → Parser β} {m n : Nat}
    (hp : TotalN p m) (hf : ∀ v, TotalN (f v) n) :
    TotalN (pbind p f) (m + n) := by
  intro l h
  obtain ⟨v, hv⟩ := hp l (by omega)
  have hlen : n ≤ (l.drop m).length := by
    rw [List.length_drop]; omega
  obtain ⟨w, hw⟩ := hf v (l.drop m) hlen
  refine ⟨w, ?_⟩
  rw [pbind_ok hv, hw, List.drop_drop]

theorem tot_pmap {p : Parser α} (f : α → β) {n : Nat}
    (hp : TotalN p n) : TotalN (pmap f p) n := by
  intro l h
  obtain ⟨v, hv⟩ := hp l h
  exact ⟨f v, by rw [pmap, pbind_ok hv]; rfl⟩

theorem tot_preceded {p : Parser α} {q : Parser β} {m n : Nat}
    (hp : TotalN p m) (hq : TotalN q n) :
    TotalN (preceded p q) (m + n) :=
  tot_pbind hp (fun _ => hq)

theorem tot_palt_left {p q : Parser α} {n : Nat}
    (hp : TotalN p n) : TotalN (palt p q) n := by
  intro l h
  obtain ⟨v, hv⟩ := hp l h
  exact ⟨v, by unfold palt; rw [hv]⟩

theorem tot_le_u8 : TotalN le_u8 1 := by
  intro l h
  match l with
  | [] => simp at h
  | b :: t => exact ⟨b.val, rfl⟩

theorem tot_le_u16 : TotalN le_u16 2 := by
  intro l h
  match l with
  | [] => simp at h
  | [a] => simp at h
  | a :: b :: t => exact ⟨a.val + b.val * 256, rfl⟩

theorem tot_be_u16 : TotalN be_u16 2 := by
  intro l h
  match l with
  | [] => simp at h
  | [a] => simp at h
  | a :: b :: t => exact ⟨a.val * 256 + b.val, rfl⟩

theorem tot_le_u32 : TotalN le_u32 4 := by
  intro l h
  match l with
  | [] => simp at h
  | [a] => simp at h
  | [a, b] => simp at h
  | [a, b, c] => simp at h
  | a :: b :: c :: d :: t =>
      exact ⟨a.val + b.val * 256 + c.val * 65536 + d.val * 16777216, rfl⟩

theorem tot_take' (n : Nat) : TotalN (take' n) n :=
  fun l h => ⟨l.take n, take'_ok h⟩

theorem tot_text : TotalN parse_descriptor_text 13 :=
  tot_pmap _ (tot_pmap _ (tot_take' 13))

theorem tot_countP {p : Parser α} {n : Nat} (hp : TotalN p n) :
    ∀ k, TotalN (countP p k) (k * n) := by
  intro k
  induction k with
  | zero => exact tot_congr (tot_ppure []) (by omega)
  | succ k ih =>
      have h := tot_pbind hp (fun v => tot_pbind ih (fun vs => tot_ppure (v :: vs)))
      exact tot_congr h (by ring)

theorem tot_detailed : TotalN parse_detailed_timing 18 := by
  refine @tot_congr _ parse_detailed_timing
    (2 + (1 + (1 + (1 + (1 + (1 + (1 + (1 + (1 + (1 + (1 + (1 + (1 + (1 + (1 + (1 + (1 + 0)))))))))))))))))
    18 ?_ (by norm_num)
  unfold parse_detailed_timing
  exact tot_pbind tot_le_u16 fun _ =>
    tot_pbind tot_le_u8 fun _ =>
    tot_pbind tot_le_u8 fun _ =>
    tot_pbind tot_le_u8 fun _ =>
    tot_pbind tot_le_u8 fun _ =>
    tot_pbind tot_le_u8 fun _ =>
    tot_pbind tot_le_u8 fun _ =>
    tot_pbind tot_le_u8 fun _ =>
    tot_pbind tot_le_u8 fun _ =>
    tot_pbind tot_le_u8 fun _ =>
    tot_pbind tot_le_u8 fun _ =>
    tot_pbind tot_le_u8 fun _ =>
    tot_pbind tot_le_u8 fun _ =>
    tot_pbind tot_le_u8 fun _ =>
    tot_pbind tot_le_u8 fun _ =>
    tot_pbind tot_le_u8 fun _ =>
    tot_pbind tot_le_u8 fun _ =>
    tot_ppure _

theorem tot_monitor : TotalN
    (pbind (take' 3) fun _ =>
      preceded le_u8 <|
        palt (pmap Descriptor.SerialNumber (preceded le_u8 parse_descriptor_text)) <|
        palt (pmap Descriptor.UnspecifiedText (preceded le_u8 parse_descriptor_text)) <|
        palt (pmap (fun _ => Descriptor.RangeLimits) (preceded le_u8 (take' 13))) <|
        palt (pmap Descriptor.ProductName (preceded le_u8 parse_descriptor_text)) <|
        palt (pmap (fun _ => Descriptor.WhitePoint) (preceded le_u8 (take' 13))) <|
        palt (pmap (fun _ => Descriptor.StandardTiming) (preceded le_u8 (take' 13))) <|
        palt (pmap (fun _ => Descriptor.ColorManagement) (preceded le_u8 (take' 13))) <|
        palt (pmap (fun _ => Descriptor.TimingCodes) (preceded le_u8 (take' 13))) <|
        palt (pmap (fun _ => Descriptor.EstablishedTimings) (preceded le_u8 (take' 13))) <|
        palt (pmap (fun _ => Descriptor.Dummy) (preceded le_u8 (take' 13)))
             (pmap (fun data => Descriptor.Unknown data) (preceded le_u8 (countP le_u8 13))))
    18 := by
  refine @tot_congr _ _ (3 + (1 + (1 + 13))) 18 ?_ (by norm_num)
  exact tot_pbind (tot_take' 3) fun _ =>
    tot_preceded tot_le_u8 <|
    tot_palt_left <| tot_pmap Descriptor.SerialNumber <| tot_preceded tot_le_u8 tot_text

theorem tot_descriptor : TotalN parse_descriptor 18 := by
  intro l h
  match l, h with
  | a :: b :: t, h =>
    have hpeek : ppeek le_u16 (a :: b :: t) = .ok (a :: b :: t) (a.val + b.val * 256) := rfl
    unfold parse_descriptor
    rw [pbind_ok hpeek]
    by_cases hz : a.val + b.val * 256 = 0
    · rw [if_pos hz]
      exact tot_monitor (a :: b :: t) h
    · rw [if_neg hz]
      exact tot_pmap Descriptor.DetailedTiming tot_detailed (a :: b :: t) h

theorem countP_ok_length {p : Parser α} {k : Nat} :
    ∀ {l r : Bytes} {vs : List α}, countP p k l = .ok r vs → vs.length = k := by
  induction k with
  | zero =>
      intro l r vs h
      obtain ⟨-, rfl⟩ := ppure_ok_inv h
      rfl
  | succ k ih =>
      intro l r vs h
      obtain ⟨r1, v, h1, h2⟩ := pbind_ok_inv h
      obtain ⟨r2, ws, h3, h4⟩ := pbind_ok_inv h2
      obtain ⟨-, rfl⟩ := ppure_ok_inv h4
      simp [ih h3]

theorem tag'_magic_ok {l : Bytes} (h : l.take 8 = magicBytes) :
    tag' magicBytes l = .ok (l.drop 8) magicBytes := by
  have hlen : magicBytes.length = 8 := rfl
  unfold tag'
  rw [hlen, if_pos h]

/-- Lemma: `parse_header` succeeds on any input of at least 20 bytes that starts
with the magic sequence, consuming exactly 20 bytes. -/
theorem header_total {l : Bytes} (hm : l.take 8 = magicBytes)
    (hl : 20 ≤ l.length) : ∃ hd, parse_header l = .ok (l.drop 20) hd := by
  have hrest : TotalN
      (pbind be_u16 fun vendor =>
       pbind le_u16 fun product =>
       pbind le_u32 fun serial =>
       pbind le_u8 fun week =>
       pbind le_u8 fun year =>
       pbind le_u8 fun version =>
       pbind le_u8 fun revision =>
       ppure { vendor := parse_vendor vendor, product := product, serial := serial,
               week := week, year := year, version := version, revision := revision,
               : Header }) 12 := by
    refine @tot_congr _ _ (2 + (2 + (4 + (1 + (1 + (1 + (1 + 0))))))) 12 ?_ (by norm_num)
    exact tot_pbind tot_be_u16 fun _ =>
      tot_pbind tot_le_u16 fun _ =>
      tot_pbind tot_le_u32 fun _ =>
      tot_pbind tot_le_u8 fun _ =>
      tot_pbind tot_le_u8 fun _ =>
      tot_pbind tot_le_u8 fun _ =>
      tot_pbind tot_le_u8 fun _ =>
      tot_ppure _
  have hlen : 12 ≤ (l.drop 8).length := by rw [List.length_drop]; omega
  obtain ⟨hd, hh⟩ := hrest (l.drop 8) hlen
  refine ⟨hd, ?_⟩
  unfold parse_header
  rw [pbind_ok (tag'_magic_ok hm), hh, List.drop_drop]

theorem tot_display : TotalN parse_display 5 := by
  refine @tot_congr _ _ (1 + (1 + (1 + (1 + (1 + 0))))) 5 ?_ (by norm_num)
  unfold parse_display
  exact tot_pbind tot_le_u8 fun _ =>
    tot_pbind tot_le_u8 fun _ =>
    tot_pbind tot_le_u8 fun _ =>
    tot_pbind tot_le_u8 fun _ =>
    tot_pbind tot_le_u8 fun _ =>
    tot_ppure _

theorem tot_chromaticity : TotalN parse_chromaticity 10 := by
  refine @tot_congr _ _ (10 + 0) 10 ?_ (by norm_num)
  exact tot_pbind (tot_take' 10) fun _ => tot_ppure ()

theorem tot_established : TotalN parse_established_timing 3 := by
  refine @tot_congr _ _ (3 + 0) 3 ?_ (by norm_num)
  exact tot_pbind (tot_take' 3) fun _ => tot_ppure ()

theorem tot_standard : TotalN parse_standard_timing 16 := by
  refine @tot_congr _ _ (16 + 0) 16 ?_ (by norm_num)
  exact tot_pbind (tot_take' 16) fun _ => tot_ppure ()

/-- Lemma: `parse_edid` succeeds on any input of at least 128 bytes starting with
the magic sequence, consumes exactly 128 bytes, and yields exactly four
descriptors. -/
theorem edid_total {l : Bytes} (hm : l.take 8 = magicBytes)
    (hl : 128 ≤ l.length) :
    ∃ e : EDID, parse_edid l = .ok (l.drop 128) e ∧ e.descriptors.length = 4 := by
  obtain ⟨hd, h1⟩ := header_total hm (by omega)
  obtain ⟨d, h2⟩ := tot_display (l.drop 20) (by rw [List.length_drop]; omega)
  rw [List.drop_drop] at h2
  norm_num at h2
  obtain ⟨c, h3⟩ := tot_chromaticity (l.drop 25) (by rw [List.length_drop]; omega)
  rw [List.drop_drop] at h3
  norm_num at h3
  obtain ⟨et, h4⟩ := tot_established (l.drop 35) (by rw [List.length_drop]; omega)
  rw [List.drop_drop] at h4
  norm_num at h4
  obtain ⟨st, h5⟩ := tot_standard (l.drop 38) (by rw [List.length_drop]; omega)
  rw [List.drop_drop] at h5
  norm_num at h5
  have hcount : TotalN (countP parse_descriptor 4) 72 :=
    tot_congr (tot_countP tot_descriptor 4) (by norm_num)
  obtain ⟨ds, h6⟩ := hcount (l.drop 54) (by rw [List.length_drop]; omega)
  rw [List.drop_drop] at h6
  norm_num at h6
  have h7 := take'_ok (l := l.drop 126) (n := 1) (by rw [List.length_drop]; omega)
  rw [List.drop_drop] at h7
  norm_num at h7
  have h8 := take'_ok (l := l.drop 127) (n := 1) (by rw [List.length_drop]; omega)
  rw [List.drop_drop] at h8
  norm_num at h8
  refine ⟨{ header := hd, display := d, chromaticity := c, established_timing := et,
            standard_timing := st, descriptors := ds }, ?_, countP_ok_length h6⟩
  unfold parse_edid
  simp only [h1, h2, h3, h4, h5, h6, h7, h8]

theorem pmap_ok {p : Parser α} {f : α → β} {l r : Bytes} {v : α}
    (h : p l = .ok r v) : pmap f p l = .ok r (f v) := by
  unfold pmap
  rw [pbind_ok h]
  rfl

theorem palt_ok_left {p q : Parser α} {l r : Bytes} {v : α}
    (h : p l = .ok r v) : palt p q l = .ok r v := by
  unfold palt
  rw [h]

theorem text_ok {l : Bytes} (h : 13 ≤ l.length) :
    parse_descriptor_text l = .ok (l.drop 13) (descString (l.take 13)) := by
  unfold parse_descriptor_text pmap
  simp [pbind, take'_ok h, ppure, descString]

/-- On any input of at least 18 bytes whose first two bytes are zero,
`parse_descriptor` takes the Monitor Descriptor branch and the first `alt`
arm wins: the result is always `SerialNumber` of the decoded text of
bytes 5..17. -/
theorem descriptor_monitor_serial {l : Bytes} (hl : 18 ≤ l.length)
    (h0 : l.take 2 = [0, 0]) :
    parse_descriptor l =
      .ok (l.drop 18) (.SerialNumber (descString ((l.drop 5).take 13))) := by
  match l, hl, h0 with
  | a :: b :: t, hl, h0 =>
    simp only [List.take, List.cons.injEq] at h0
    obtain ⟨ha, hb, -⟩ := h0
    have hpeek : ppeek le_u16 (a :: b :: t) = .ok (a :: b :: t) (a.val + b.val * 256) := rfl
    have hz : a.val + b.val * 256 = 0 := by
      rw [ha, hb]; rfl
    have h3 : take' 3 (a :: b :: t) = .ok ((a :: b :: t).drop 3) ((a :: b :: t).take 3) :=
      take'_ok (by simp at hl ⊢; omega)
    have h4 : le_u8 ((a :: b :: t).drop 3) =
        .ok ((a :: b :: t).drop 4) ((t.drop 1).headI.val) := by
      match t, hl with
      | c :: d :: t', _ => rfl
    have h5 : le_u8 ((a :: b :: t).drop 4) =
        .ok ((a :: b :: t).drop 5) ((t.drop 2).headI.val) := by
      match t, hl with
      | c :: d :: e :: t', _ => rfl
    have h6 : parse_descriptor_text ((a :: b :: t).drop 5) =
        .ok (((a :: b :: t).drop 5).drop 13) (descString (((a :: b :: t).drop 5).take 13)) := by
      refine text_ok ?_
      rw [List.length_drop]
      simp at hl ⊢
      omega
    rw [List.drop_drop] at h6
    norm_num at h6
    unfold parse_descriptor
    rw [pbind_ok hpeek, if_pos hz, pbind_ok h3]
    unfold preceded
    rw [pbind_ok h4]
    refine palt_ok_left ?_
    refine pmap_ok ?_
    rw [pbind_ok h5]
    exact h6

theorem take'_err {n : Nat} {l : Bytes} (h : l.length < n) :
    take' n l = .err .eof := by
  unfold take'
  rw [if_neg (by omega)]

theorem text_err {l : Bytes} (h : l.length < 13) :
    parse_descriptor_text l = .err .eof := by
  unfold parse_descriptor_text pmap
  simp [pbind, take'_err h]

/-- Any `Header` returned by `parse_header` has `vendor = parse_vendor v`
for the big-endian 16-bit value `v` read at offsets 8-9. -/
theorem header_vendor_inv {l r : Bytes} {hd : Header}
    (h : parse_header l = .ok r hd) : ∃ v, v < 65536 ∧ hd.vendor = parse_vendor v := by
  unfold parse_header at h
  obtain ⟨r1, t1, h1, h⟩ := pbind_ok_inv h
  obtain ⟨r2, v, h2, h⟩ := pbind_ok_inv h
  obtain ⟨r3, t3, h3, h⟩ := pbind_ok_inv h
  obtain ⟨r4, t4, h4, h⟩ := pbind_ok_inv h
  obtain ⟨r5, t5, h5, h⟩ := pbind_ok_inv h
  obtain ⟨r6, t6, h6, h⟩ := pbind_ok_inv h
  obtain ⟨r7, t7, h7, h⟩ := pbind_ok_inv h
  obtain ⟨r8, t8, h8, h⟩ := pbind_ok_inv h
  obtain ⟨-, rfl⟩ := ppure_ok_inv h
  refine ⟨v, ?_, rfl⟩
  match r1, h2 with
  | a :: b :: t, h2 =>
    cases h2
    have ha := a.isLt
    have hb := b.isLt
    omega

/-- Each 5-bit vendor field, offset by 64, is a character code in 64..95. -/
theorem vendor_field_char_range (x : Nat) (hx : x ≤ 31) :
    64 ≤ (Char.ofNat (x + 64)).toNat ∧ (Char.ofNat (x + 64)).toNat ≤ 95 := by
  interval_cases x <;> exact ⟨by decide, by decide⟩

theorem parse_vendor_range (v : Nat) :
    (64 ≤ (parse_vendor v).1.toNat ∧ (parse_vendor v).1.toNat ≤ 95) ∧
    (64 ≤ (parse_vendor v).2.1.toNat ∧ (parse_vendor v).2.1.toNat ≤ 95) ∧
    (64 ≤ (parse_vendor v).2.2.toNat ∧ (parse_vendor v).2.2.toNat ≤ 95) := by
  refine ⟨?_, ?_, ?_⟩
  · exact vendor_field_char_range _ (Nat.and_le_right)
  · exact vendor_field_char_range _ (Nat.and_le_right)
  · exact vendor_field_char_range _ (Nat.and_le_right)

/-- On success the pixel clock is 10 times the little-endian 16-bit value
of the first two input bytes (and hence a bounded multiple of 10). -/
theorem detailed_pixel_clock_inv {l r : Bytes} {t : DetailedTiming}
    (h : parse_detailed_timing l = .ok r t) :
    ∃ a b : Byte, ∃ t' : Bytes, l = a :: b :: t' ∧
      t.pixel_clock = (a.val + b.val * 256) * 10 := by
  unfold parse_detailed_timing at h
  obtain ⟨r1, v1, h1, h⟩ := pbind_ok_inv h
  obtain ⟨r2, v2, h2, h⟩ := pbind_ok_inv h
  obtain ⟨r3, v3, h3, h⟩ := pbind_ok_inv h
  obtain ⟨r4, v4, h4, h⟩ := pbind_ok_inv h
  obtain ⟨r5, v5, h5, h⟩ := pbind_ok_inv h
  obtain ⟨r6, v6, h6, h⟩ := pbind_ok_inv h
  obtain ⟨r7, v7, h7, h⟩ := pbind_ok_inv h
  obtain ⟨r8, v8, h8, h⟩ := pbind_ok_inv h
  obtain ⟨r9, v9, h9, h⟩ := pbind_ok_inv h
  obtain ⟨r10, v10, h10, h⟩ := pbind_ok_inv h
  obtain ⟨r11, v11, h11, h⟩ := pbind_ok_inv h
  obtain ⟨r12, v12, h12, h⟩ := pbind_ok_inv h
  obtain ⟨r13, v13, h13, h⟩ := pbind_ok_inv h
  obtain ⟨r14, v14, h14, h⟩ := pbind_ok_inv h
  obtain ⟨r15, v15, h15, h⟩ := pbind_ok_inv h
  obtain ⟨r16, v16, h16, h⟩ := pbind_ok_inv h
  obtain ⟨r17, v17, h17, h⟩ := pbind_ok_inv h
  obtain ⟨-, rfl⟩ := ppure_ok_inv h
  match l, h1 with
  | a :: b :: t2, h1 =>
    cases h1
    exact ⟨a, b, _, rfl, rfl⟩

/-! ## Claim theorems -/

/-- C1: the claim says a truncated buffer that passes the header, display
and skipped regions but fails inside the four descriptor slots still
yields an error result to the caller.  The code does not: the `.unwrap()`
at src/src/lib.rs line 276 panics instead of returning an error.  On the
54-byte input `truncInput` (valid magic then zeros) every stage up to the
skipped regions succeeds, the descriptor region is empty, and `parse_edid`
panics. -/
theorem edid_truncated_descriptors_panics : parse_edid truncInput = .panicked := by decide

/-- C2 counterexample: the vendor value 0 decodes to three `'@'`
characters, which are strictly below `'A'`; so not every decoded vendor
character lies in `'A'`..`'Z'`. -/
theorem vendor_zero_outside_A_to_Z :
    parse_vendor 0 = ('@', '@', '@') ∧
    ¬('A' ≤ (parse_vendor 0).1 ∧ (parse_vendor 0).1 ≤ 'Z') := by decide

/-- C2 (amended): every character produced by the 5-bit vendor decode —
and hence every `Header.vendor` character returned by `parse_header` —
lies in the range `'@'` (code 64) to `'_'` (code 95) inclusive, i.e. in
`'A'`..`'Z'` only when each 5-bit field value lies in 1..26. -/
theorem vendor_chars_in_64_to_95 :
    (∀ v : Nat,
      (64 ≤ (parse_vendor v).1.toNat ∧ (parse_vendor v).1.toNat ≤ 95) ∧
      (64 ≤ (parse_vendor v).2.1.toNat ∧ (parse_vendor v).2.1.toNat ≤ 95) ∧
      (64 ≤ (parse_vendor v).2.2.toNat ∧ (parse_vendor v).2.2.toNat ≤ 95)) ∧
    (∀ (l r : Bytes) (hd : Header), parse_header l = .ok r hd →
      (64 ≤ hd.vendor.1.toNat ∧ hd.vendor.1.toNat ≤ 95) ∧
      (64 ≤ hd.vendor.2.1.toNat ∧ hd.vendor.2.1.toNat ≤ 95) ∧
      (64 ≤ hd.vendor.2.2.toNat ∧ hd.vendor.2.2.toNat ≤ 95)) := by
  refine ⟨parse_vendor_range, ?_⟩
  intro l r hd h
  obtain ⟨v, -, hv⟩ := header_vendor_inv h
  rw [hv]
  exact parse_vendor_range v

theorem vendor_chars_in_64_to_95_witness :
    (64 ≤ hdr0.vendor.1.toNat ∧ hdr0.vendor.1.toNat ≤ 95) ∧
    (64 ≤ hdr0.vendor.2.1.toNat ∧ hdr0.vendor.2.1.toNat ≤ 95) ∧
    (64 ≤ hdr0.vendor.2.2.toNat ∧ hdr0.vendor.2.2.toNat ≤ 95) :=
  vendor_chars_in_64_to_95.2 hdrInput [] hdr0 (by decide)

/-- C3: every descriptor slot of at least 18 bytes whose first two bytes
are both zero is resolved by `parse_descriptor` as
`Descriptor.SerialNumber` carrying the decoded text of bytes 5..17 —
whatever the sub-tag byte (byte 3) says; the later `alt` variants are
never produced. -/
theorem monitor_descriptor_always_serial_number :
    ∀ l : Bytes, 18 ≤ l.length → l.take 2 = [0, 0] →
      parse_descriptor l =
        .ok (l.drop 18) (.SerialNumber (descString ((l.drop 5).take 13))) :=
  fun _ hl h0 => descriptor_monitor_serial hl h0

theorem monitor_descriptor_always_serial_number_witness :
    parse_descriptor pnSlot =
      .ok (pnSlot.drop 18) (.SerialNumber (descString ((pnSlot.drop 5).take 13))) :=
  monitor_descriptor_always_serial_number pnSlot (by decide) (by decide)

/-- C4: on every input of at least 128 bytes whose first 8 bytes are the
magic sequence, `parse_edid` succeeds, the remaining slice is the input
minus its first 128 bytes, and the descriptor list has exactly four
entries. -/
theorem parse_edid_magic_128_succeeds :
    ∀ l : Bytes, 128 ≤ l.length → l.take 8 = magicBytes →
      ∃ e : EDID, parse_edid l = .ok (l.drop 128) e ∧ e.descriptors.length = 4 :=
  fun _ hl hm => edid_total hm hl

set_option maxRecDepth 8192 in
theorem parse_edid_magic_128_succeeds_witness :
    ∃ e : EDID, parse_edid in128 = .ok (in128.drop 128) e ∧ e.descriptors.length = 4 :=
  parse_edid_magic_128_succeeds in128 (by decide) (by decide)

/-- C5: the 18-byte block of the `card0-VGA-1` fixture decodes to exactly
pixel clock 146250 kHz, 1680×1050 active, 560×39 blanking, 104/176
horizontal front-porch/sync, 3/6 vertical front-porch/sync, 474×296 mm,
zero borders, features byte 28. -/
theorem detailed_timing_card0_vga : parse_detailed_timing vgaBlock = .ok [] vgaTiming := by
  decide

/-- C6: whenever the first 8 bytes of the input differ from the magic
sequence — in particular for every buffer shorter than 8 bytes —
`parse_header` returns the magic-mismatch error, never a `Header`. -/
theorem parse_header_rejects_bad_magic :
    ∀ l : Bytes, l.take 8 ≠ magicBytes → parse_header l = .err .tagMismatch := by
  intro l h
  have ht : tag' magicBytes l = .err .tagMismatch := by
    unfold tag'
    rw [show magicBytes.length = 8 from rfl, if_neg h]
  unfold parse_header
  simp only [pbind, ht]

theorem parse_header_rejects_bad_magic_witness :
    parse_header [] = .err .tagMismatch :=
  parse_header_rejects_bad_magic [] (by decide)

/-- C7: whenever `parse_detailed_timing` succeeds, the pixel clock equals
10 times the little-endian 16-bit value of the first two bytes; hence it
is a multiple of 10, at most 655350, and far below `2 ^ 32`. -/
theorem pixel_clock_times_ten :
    ∀ (l r : Bytes) (t : DetailedTiming), parse_detailed_timing l = .ok r t →
      ∃ a b : Byte, ∃ t2 : Bytes, l = a :: b :: t2 ∧
        t.pixel_clock = (a.val + b.val * 256) * 10 ∧
        10 ∣ t.pixel_clock ∧ t.pixel_clock ≤ 655350 ∧ t.pixel_clock < 2 ^ 32 := by
  intro l r t h
  obtain ⟨a, b, t2, rfl, hpc⟩ := detailed_pixel_clock_inv h
  have ha := a.isLt
  have hb := b.isLt
  refine ⟨a, b, t2, rfl, hpc, ⟨a.val + b.val * 256, by rw [hpc]; ring⟩, ?_, ?_⟩ <;>
    rw [hpc] <;> omega

theorem pixel_clock_times_ten_witness :
    ∃ a b : Byte, ∃ t2 : Bytes, vgaBlock = a :: b :: t2 ∧
      vgaTiming.pixel_clock = (a.val + b.val * 256) * 10 ∧
      10 ∣ vgaTiming.pixel_clock ∧ vgaTiming.pixel_clock ≤ 655350 ∧
      vgaTiming.pixel_clock < 2 ^ 32 :=
  pixel_clock_times_ten vgaBlock [] vgaTiming (by decide)

/-- C8: `parse_descriptor_text` succeeds exactly when at least 13 bytes
remain, consumes exactly 13 bytes, and returns the 0x0A-filtered,
CP437-translated, whitespace-trimmed string of those 13 bytes; with fewer
than 13 bytes it fails with the end-of-input error. -/
theorem descriptor_text_iff_13 :
    ∀ l : Bytes,
      (13 ≤ l.length →
        parse_descriptor_text l = .ok (l.drop 13) (descString (l.take 13))) ∧
      (l.length < 13 → parse_descriptor_text l = .err .eof) :=
  fun _ => ⟨fun h => text_ok h, fun h => text_err h⟩

theorem descriptor_text_iff_13_witness :
    parse_descriptor_text (List.replicate 13 (0 : Byte)) =
      .ok ((List.replicate 13 (0 : Byte)).drop 13)
          (descString ((List.replicate 13 (0 : Byte)).take 13)) :=
  (descriptor_text_iff_13 (List.replicate 13 (0 : Byte))).1 (by decide)

/-- C9: the decoder is a pure function of the input bytes — equal inputs
produce structurally equal results. -/
theorem parse_deterministic :
    ∀ d1 d2 : Bytes, d1 = d2 → parse d1 = parse d2 :=
  fun _ _ h => congrArg parse h

theorem parse_deterministic_witness : parse truncInput = parse truncInput :=
  parse_deterministic truncInput truncInput rfl

/-- C10: whenever `parse_descriptor` succeeds it had at least 18 bytes of
input and consumed exactly 18 of them, in both the Monitor Descriptor and
the Detailed Timing branches. -/
theorem parse_descriptor_consumes_exactly_18 :
    ∀ (l r : Bytes) (d : Descriptor), parse_descriptor l = .ok r d →
      18 ≤ l.length ∧ r = l.drop 18 :=
  fun l r d h => co_descriptor l r d h

theorem parse_descriptor_consumes_exactly_18_witness :
    18 ≤ dtSlot.length ∧ ([] : Bytes) = dtSlot.drop 18 :=
  parse_descriptor_consumes_exactly_18 dtSlot [] (.DetailedTiming dtTen) (by decide)
